import Mathlib

/-!
Shallow embedding of the hurricane parametric payout engine
(`src/payout_engine.py`) and proofs of its specified properties.

Coordinates, wind speeds, pressures and payout fractions are modelled as
rationals.  Absent readings (pandas `NaN`) are modelled as `Option.none`.
The geodesic distance routine comes from the external `geopy` library
(not part of this repository), so the engine is parameterised over a
distance function `GeoDist`; `float('inf')` sentinels are modelled with
`WithTop ℚ`.
-/

/-- A raw storm-track observation: `LAT`, `LON`, `USA_WIND`, `USA_PRES`.
`none` models a pandas `NaN` reading. -/
structure TrackPoint where
  lat : ℚ
  lon : ℚ
  wind : Option ℚ
  pres : Option ℚ
deriving DecidableEq

/-- One row of a payout table: `Category`, `Min_Wind`, `Max_Pressure`,
`Payout_Pct`.  `none` models a `NaN` threshold. -/
structure Tier where
  category : ℤ
  minWind : Option ℚ
  maxPressure : Option ℚ
  payoutPct : ℚ
deriving DecidableEq

/-- The geographic-distance function (`calculate_distance_miles`, backed by
`geopy.distance.geodesic`, external to the repository).  It takes the two
latitude/longitude pairs and returns miles, or `⊤` for the `ValueError`
sentinel `float('inf')`. -/
abbrev GeoDist := ℚ → ℚ → ℚ → ℚ → WithTop ℚ

/-- The location geometry used by the engine: `lat`, `lon`, `radius_miles`. -/
structure Loc where
  lat : ℚ
  lon : ℚ
  radius : ℚ
deriving DecidableEq

/-- The record returned by `interpolate_segment` when the segment comes
within radius. -/
structure InterpPoint where
  lat : ℚ
  lon : ℚ
  wind : ℚ
  pres : ℚ
  dist : WithTop ℚ
deriving DecidableEq

/-- The raw projection parameter `t` of the location onto the line through
`p1`, `p2` (flat-earth), before clamping. -/
def seg_t (p1 p2 : TrackPoint) (loc : Loc) : ℚ :=
  let dx := p2.lat - p1.lat
  let dy := p2.lon - p1.lon
  ((loc.lat - p1.lat) * dx + (loc.lon - p1.lon) * dy) / (dx * dx + dy * dy)

/-- The projection parameter clamped to `[0, 1]` (`t = max(0, min(1, t))`). -/
def seg_t_clamped (p1 p2 : TrackPoint) (loc : Loc) : ℚ :=
  max 0 (min 1 (seg_t p1 p2 loc))

/-- Latitude of the closest point on the segment (`lat_c = lat1 + t * dx`). -/
def seg_closest_lat (p1 p2 : TrackPoint) (loc : Loc) : ℚ :=
  p1.lat + seg_t_clamped p1 p2 loc * (p2.lat - p1.lat)

/-- Longitude of the closest point on the segment (`lon_c = lon1 + t * dy`). -/
def seg_closest_lon (p1 p2 : TrackPoint) (loc : Loc) : ℚ :=
  p1.lon + seg_t_clamped p1 p2 loc * (p2.lon - p1.lon)

/-- `interpolate_segment(p1, p2, location)`: projects the location onto the
segment `p1`–`p2`, clamps to the segment, measures the true distance to the
projected point and, if within radius, returns the record with wind and
pressure linearly interpolated at the same parameter (missing wind treated
as `0`, missing pressure as `1013`). Returns `none` for a degenerate
(coincident-endpoint) segment. -/
def interpolate_segment (dist : GeoDist) (p1 p2 : TrackPoint) (loc : Loc) :
    Option InterpPoint :=
  if p2.lat - p1.lat = 0 ∧ p2.lon - p1.lon = 0 then none
  else
    let t := seg_t_clamped p1 p2 loc
    let latc := seg_closest_lat p1 p2 loc
    let lonc := seg_closest_lon p1 p2 loc
    let d := dist loc.lat loc.lon latc lonc
    if d ≤ (loc.radius : WithTop ℚ) then
      some { lat := latc, lon := lonc,
             wind := p1.wind.getD 0 + t * (p2.wind.getD 0 - p1.wind.getD 0),
             pres := p1.pres.getD 1013 + t * (p2.pres.getD 1013 - p1.pres.getD 1013),
             dist := d }
    else none

/-- `determine_category(wind, pressure, payout_table)`: the maximum of the
wind-path category (highest `Category` with `wind >= Min_Wind`; rows with a
`NaN` threshold never compare true) and the pressure-path category (highest
`Category` with `pressure <= Max_Pressure`, guarded by
`pd.notna(pressure) and pressure > 0`). -/
def determine_category (wind pressure : Option ℚ) (table : List Tier) : ℤ :=
  let cat_wind : ℤ :=
    match wind with
    | some w =>
        table.foldl (fun acc row =>
          match row.minWind with
          | some mw => if mw ≤ w then max acc row.category else acc
          | none => acc) 0
    | none => 0
  let cat_pres : ℤ :=
    match pressure with
    | some p =>
        if 0 < p then
          table.foldl (fun acc row =>
            match row.maxPressure with
            | some mp => if p ≤ mp then max acc row.category else acc
            | none => acc) 0
        else 0
    | none => 0
  max cat_wind cat_pres

/-- Payout resolution (lines 208–228 of `evaluate_payout_complex`): first an
exact `Category == max_cat_achieved` match (first matching row's
`Payout_Pct`), otherwise the maximum `Payout_Pct` over rows with
`Category <= max_cat_achieved`, otherwise `0.0`. -/
def resolve_payout (table : List Tier) (cat : ℤ) : ℚ :=
  match table.filter (fun r => decide (r.category = cat)) with
  | m :: _ => m.payoutPct
  | [] =>
      match (table.filter (fun r => decide (r.category ≤ cat))).map Tier.payoutPct with
      | [] => 0
      | x :: xs => xs.foldl max x

/-- A candidate point examined by the final loop of
`evaluate_payout_complex`: either a raw track point annotated with its
distance to the location (`p['dist'] = ...`), or an interpolated segment
point. -/
inductive Candidate where
  | raw : TrackPoint → WithTop ℚ → Candidate
  | fromSeg : InterpPoint → Candidate
deriving DecidableEq

def Candidate.dist : Candidate → WithTop ℚ
  | .raw _ d => d
  | .fromSeg q => q.dist

def Candidate.wind : Candidate → Option ℚ
  | .raw p _ => p.wind
  | .fromSeg q => some q.wind

def Candidate.pres : Candidate → Option ℚ
  | .raw p _ => p.pres
  | .fromSeg q => some q.pres

/-- The mutable loop state of `evaluate_payout_complex`: `min_dist`,
`max_cat_achieved`, `closest_point_data`. -/
structure ScanState where
  minDist : WithTop ℚ
  maxCat : ℤ
  closest : Option Candidate
deriving DecidableEq

/-- The `'interpolated'` branch: for each consecutive pair, append the
in-radius interpolated point (if any) and then the raw first endpoint with
its distance; after the loop, append the last point with its distance. -/
def interpolatedPairs (dist : GeoDist) (loc : Loc) : List TrackPoint → List Candidate
  | p1 :: p2 :: rest =>
      (match interpolate_segment dist p1 p2 loc with
       | some q => [Candidate.fromSeg q]
       | none => []) ++
      Candidate.raw p1 (dist loc.lat loc.lon p1.lat p1.lon) ::
      interpolatedPairs dist loc (p2 :: rest)
  | _ => []

def points_to_check_interpolated (dist : GeoDist) (loc : Loc)
    (track : List TrackPoint) : List Candidate :=
  interpolatedPairs dist loc track ++
  (match track.getLast? with
   | some last => [Candidate.raw last (dist loc.lat loc.lon last.lat last.lon)]
   | none => [])

/-- One iteration of the `'max_outcome'` pair loop: track the raw first
endpoint's distance, then — when the segment comes within radius — track the
interpolated point's distance and fold in `max(Cat(P1), Cat(P2))`. -/
def maxOutcomeStep (dist : GeoDist) (loc : Loc) (table : List Tier)
    (p1 p2 : TrackPoint) (st : ScanState) : ScanState :=
  let interp := interpolate_segment dist p1 p2 loc
  let d1 := dist loc.lat loc.lon p1.lat p1.lon
  let st1 := if d1 < st.minDist then
      { st with minDist := d1, closest := some (Candidate.raw p1 d1) }
    else st
  match interp with
  | some q =>
      let st' := if q.dist < st1.minDist then
          { st1 with minDist := q.dist, closest := some (Candidate.fromSeg q) }
        else st1
      let cat1 := determine_category p1.wind p1.pres table
      let cat2 := determine_category p2.wind p2.pres table
      let segCat := max cat1 cat2
      if st'.maxCat < segCat then { st' with maxCat := segCat } else st'
  | none => st1

/-- The `'max_outcome'` pair loop over all consecutive pairs. -/
def maxOutcomeLoop (dist : GeoDist) (loc : Loc) (table : List Tier) :
    List TrackPoint → ScanState → ScanState
  | p1 :: p2 :: rest, st =>
      maxOutcomeLoop dist loc table (p2 :: rest) (maxOutcomeStep dist loc table p1 p2 st)
  | _, st => st

/-- The `'max_outcome'` trailing check of the last track point (distance
tracking only). -/
def maxOutcomeLast (dist : GeoDist) (loc : Loc) (track : List TrackPoint)
    (st : ScanState) : ScanState :=
  match track.getLast? with
  | some last =>
      let dl := dist loc.lat loc.lon last.lat last.lon
      if dl < st.minDist then
        { st with minDist := dl, closest := some (Candidate.raw last dl) }
      else st
  | none => st

/-- One iteration of the final candidate loop (`for pt in points_to_check`):
track the minimum distance, and for an in-radius point fold in the point's
own classifier category. -/
def scanStep (radius : ℚ) (table : List Tier) (pt : Candidate) (st : ScanState) :
    ScanState :=
  let st1 := if pt.dist < st.minDist then
      { st with minDist := pt.dist, closest := some pt }
    else st
  if pt.dist ≤ (radius : WithTop ℚ) then
    let c := determine_category pt.wind pt.pres table
    if st1.maxCat < c then { st1 with maxCat := c } else st1
  else st1

/-- The final candidate loop over all candidate points. -/
def scanCandidates (radius : ℚ) (table : List Tier) :
    List Candidate → ScanState → ScanState
  | [], st => st
  | pt :: rest, st => scanCandidates radius table rest (scanStep radius table pt st)

/-- The result record of `evaluate_payout_complex`. -/
structure EvalResult where
  triggered : Bool
  payout_ratio : ℚ
  max_category_inside_radius : ℤ
  triggered_category : ℤ
  min_distance_miles : WithTop ℚ
  closest_point_data : Option Candidate
deriving DecidableEq

/-- `policy_params`: the `lat` / `lon` / `radius_miles` entries may be
absent (`.get` returning `None`); the payout table. -/
structure Policy where
  lat : Option ℚ
  lon : Option ℚ
  radius : Option ℚ
  payout_table : List Tier
deriving DecidableEq

/-- The body of `evaluate_payout_complex` after parameter validation:
branch on the trigger method, run the final candidate scan, resolve the
payout and assemble the result. -/
def evaluate_core (dist : GeoDist) (track : List TrackPoint) (loc : Loc)
    (table : List Tier) (method : String) : EvalResult :=
  let st0 : ScanState := ⟨⊤, 0, none⟩
  let branch : List Candidate × ScanState :=
    if method = "interpolated" then
      (points_to_check_interpolated dist loc track, st0)
    else if method = "max_outcome" then
      ([], maxOutcomeLast dist loc track (maxOutcomeLoop dist loc table track st0))
    else ([], st0)
  let stF := scanCandidates loc.radius table branch.1 branch.2
  let ratio := resolve_payout table stF.maxCat
  { triggered := decide (0 < ratio),
    payout_ratio := ratio,
    max_category_inside_radius := stF.maxCat,
    triggered_category := stF.maxCat,
    min_distance_miles := stF.minDist,
    closest_point_data := stF.closest }

/-- `evaluate_payout_complex(storm_track_df, policy_params, trigger_method)`:
raises `ValueError("Missing policy parameters.")` when `lat`, `lon` or
`radius_miles` is `None`, otherwise evaluates the track. -/
def evaluate_payout_complex (dist : GeoDist) (track : List TrackPoint)
    (policy : Policy) (method : String) : Except String EvalResult :=
  match policy.lat, policy.lon, policy.radius with
  | some la, some lo, some r =>
      .ok (evaluate_core dist track ⟨la, lo, r⟩ policy.payout_table method)
  | _, _, _ => .error "Missing policy parameters."

/-- A portfolio location record: `Name`, `lat`, `lon`, `radius_miles`,
`sublimit`, and the optional `Profile_Name`
(`loc.get('Profile_Name', 'Default')`). -/
structure PortLoc where
  name : String
  lat : ℚ
  lon : ℚ
  radius : ℚ
  sublimit : ℚ
  profileName : Option String
deriving DecidableEq

/-- One row of the portfolio `location_breakdown`. -/
structure LocDetail where
  location : String
  triggered : Bool
  payout : ℚ
  category : ℤ
  minDist : WithTop ℚ
deriving DecidableEq

/-- The result record of `evaluate_portfolio_complex`. -/
structure PortfolioResult where
  triggered : Bool
  total_payout : ℚ
  uncapped_payout : ℚ
  location_breakdown : List LocDetail
deriving DecidableEq

/-- Profile resolution with fallback (lines 249–259): look the profile up
by name, else fall back to the `"Default"` profile, else to the first
available profile.  `none` models the `IndexError` raised by
`list(payout_profiles.values())[0]` on an empty mapping.  The profile
mapping is an association list with the dict's insertion order. -/
def resolve_profile (profiles : List (String × List Tier)) (name : String) :
    Option (List Tier) :=
  match profiles.lookup name with
  | some t => some t
  | none =>
      match profiles.lookup "Default" with
      | some t => some t
      | none => (profiles.map Prod.snd).head?

/-- The per-location loop of `evaluate_portfolio_complex`, threading the
accumulated total, breakdown rows and `triggered_any` flag. -/
def portfolioLoop (dist : GeoDist) (track : List TrackPoint)
    (profiles : List (String × List Tier)) (method : String) :
    List PortLoc → ℚ → List LocDetail → Bool →
    Except String (ℚ × List LocDetail × Bool)
  | [], total, details, trig => .ok (total, details, trig)
  | loc :: rest, total, details, trig =>
      match resolve_profile profiles (loc.profileName.getD "Default") with
      | none => .error "list index out of range"
      | some table =>
          match evaluate_payout_complex dist track
              ⟨some loc.lat, some loc.lon, some loc.radius, table⟩ method with
          | .error e => .error e
          | .ok res =>
              let locPayout := if res.triggered then res.payout_ratio * loc.sublimit else 0
              let trig' := trig || res.triggered
              portfolioLoop dist track profiles method rest (total + locPayout)
                (details ++ [⟨loc.name, res.triggered, locPayout,
                  res.max_category_inside_radius, res.min_distance_miles⟩]) trig'

/-- `evaluate_portfolio_complex(storm_track_df, locations, aggregate_limit,
payout_profiles, trigger_method)`: evaluate each location with its resolved
profile, sum location payouts, cap the total at the aggregate limit. -/
def evaluate_portfolio_complex (dist : GeoDist) (track : List TrackPoint)
    (locations : List PortLoc) (aggregate_limit : ℚ)
    (payout_profiles : List (String × List Tier)) (method : String) :
    Except String PortfolioResult :=
  match portfolioLoop dist track payout_profiles method locations 0 [] false with
  | .error e => .error e
  | .ok (total, details, trig) =>
      .ok { triggered := trig,
            total_payout := min total aggregate_limit,
            uncapped_payout := total,
            location_breakdown := details }

/-! Specification-level definitions:

These follow the wording of the specification and are compared with the
source-derived definitions above. -/

/-- Spec wording (§4.2): the wind path is "the highest tier category whose
minimum-wind threshold is ≤ the observed wind"; tiers with no threshold are
skipped; absent wind contributes 0. -/
def windPathSpec (wind : Option ℚ) (table : List Tier) : ℤ :=
  match wind with
  | none => 0
  | some w =>
      ((table.filter (fun r =>
          match r.minWind with
          | some mw => decide (mw ≤ w)
          | none => false)).map Tier.category).foldl max 0

/-- Spec wording (§4.2): the pressure path is "the highest tier category
whose maximum-pressure threshold is ≥ the observed pressure"; tiers with no
threshold, or pressure ≤ 0, are skipped. -/
def presPathSpec (pressure : Option ℚ) (table : List Tier) : ℤ :=
  match pressure with
  | none => 0
  | some p =>
      if p ≤ 0 then 0
      else
        ((table.filter (fun r =>
            match r.maxPressure with
            | some mp => decide (p ≤ mp)
            | none => false)).map Tier.category).foldl max 0

/-- Consecutive pairs of a track (the segments). -/
def consecPairs : List TrackPoint → List (TrackPoint × TrackPoint)
  | p1 :: p2 :: rest => (p1, p2) :: consecPairs (p2 :: rest)
  | _ => []

/-- The achieved categories of the radius-intersecting segments of a track,
each being the maximum of the classifier result at the two raw endpoints. -/
def segCatList (dist : GeoDist) (loc : Loc) (table : List Tier)
    (track : List TrackPoint) : List ℤ :=
  (consecPairs track).filterMap (fun pq =>
    match interpolate_segment dist pq.1 pq.2 loc with
    | some _ => some (max (determine_category pq.1.wind pq.1.pres table)
                          (determine_category pq.2.wind pq.2.pres table))
    | none => none)

/-- Spec wording (§4.3, `max_outcome`): the overall achieved category is
the maximum across all radius-intersecting segments of
`max(Cat(P1), Cat(P2))`, and 0 when there is none. -/
def maxOutcomeCatSpec (dist : GeoDist) (loc : Loc) (table : List Tier)
    (track : List TrackPoint) : ℤ :=
  (segCatList dist loc table track).foldl max 0

/-- The classifier categories of the candidate points lying within radius. -/
def inRadiusCatList (radius : ℚ) (table : List Tier) (l : List Candidate) : List ℤ :=
  (l.filter (fun pt => decide (pt.dist ≤ (radius : WithTop ℚ)))).map
    (fun pt => determine_category pt.wind pt.pres table)

/-- The payout a location contributes to the portfolio sum: its evaluated
payout ratio times its sublimit (0 when its evaluation cannot be carried
out). -/
def location_payout (dist : GeoDist) (track : List TrackPoint)
    (profiles : List (String × List Tier)) (method : String) (loc : PortLoc) : ℚ :=
  match resolve_profile profiles (loc.profileName.getD "Default") with
  | none => 0
  | some table =>
      match evaluate_payout_complex dist track
          ⟨some loc.lat, some loc.lon, some loc.radius, table⟩ method with
      | .ok res => res.payout_ratio * loc.sublimit
      | .error _ => 0

/-- Whether a location individually triggers under its resolved profile. -/
def location_triggered (dist : GeoDist) (track : List TrackPoint)
    (profiles : List (String × List Tier)) (method : String) (loc : PortLoc) : Bool :=
  match resolve_profile profiles (loc.profileName.getD "Default") with
  | none => false
  | some table =>
      match evaluate_payout_complex dist track
          ⟨some loc.lat, some loc.lon, some loc.radius, table⟩ method with
      | .ok res => res.triggered
      | .error _ => false

/-! Concrete instances used for witnesses and counterexamples. -/

/-- Absolute value written with a comparison, so that it evaluates by
kernel reduction. -/
def ratAbs (x : ℚ) : ℚ := if x < 0 then -x else x

/-- A concrete flat-earth distance model (69 miles per degree, L1 metric),
standing in for the external geodesic routine on small concrete inputs. -/
def flatGeo : GeoDist := fun la lo lb lob =>
  (((ratAbs (la - lb) + ratAbs (lo - lob)) * 69 : ℚ) : WithTop ℚ)

/-- A sparse three-tier wind-threshold payout table
(categories 1 / 3 / 5, fractions 0.10 / 0.50 / 1.00). -/
def table135 : List Tier :=
  [⟨1, some 64, none, 1/10⟩, ⟨3, some 96, none, 1/2⟩, ⟨5, some 137, none, 1⟩]

/-- A single stationary category-5-strength observation. -/
def pt5 : TrackPoint := ⟨25, -80, some 150, none⟩

deriving instance DecidableEq for Except

/-- Portfolio location "A", referencing a stale profile name. -/
def locA : PortLoc := ⟨"A", 25, -80, 50, 600000, some "Res"⟩

/-- Portfolio location "B", with no profile reference. -/
def locB : PortLoc := ⟨"B", 25, -80, 50, 600000, none⟩

/-- A profile mapping holding only a `"Default"` profile. -/
def profsDefault : List (String × List Tier) := [("Default", table135)]

/-- A profile mapping holding a single non-`"Default"` profile. -/
def profsOther : List (String × List Tier) := [("Other", table135)]

/-! Helper lemmas. -/

lemma le_foldl_max {α : Type} [LinearOrder α] (l : List α) (a : α) :
    a ≤ l.foldl max a := by
  induction l generalizing a with
  | nil => exact le_refl a
  | cons x xs ih => exact le_trans (le_max_left a x) (ih (max a x))

lemma mem_le_foldl_max {α : Type} [LinearOrder α] {l : List α} {x : α} (a : α)
    (hx : x ∈ l) : x ≤ l.foldl max a := by
  induction l generalizing a with
  | nil => cases hx
  | cons y ys ih =>
      rcases List.mem_cons.mp hx with h | h
      · subst h
        exact le_trans (le_max_right a x) (le_foldl_max ys (max a x))
      · exact ih (max a y) h

lemma foldl_max_le {α : Type} [LinearOrder α] {l : List α} {a b : α}
    (ha : a ≤ b) (h : ∀ x ∈ l, x ≤ b) : l.foldl max a ≤ b := by
  induction l generalizing a with
  | nil => exact ha
  | cons x xs ih =>
      exact ih (max_le ha (h x (List.mem_cons_self x xs)))
        (fun y hy => h y (List.mem_cons_of_mem x hy))

lemma foldl_max_attain {α : Type} [LinearOrder α] (l : List α) (a : α) :
    l.foldl max a = a ∨ l.foldl max a ∈ l := by
  induction l generalizing a with
  | nil => exact Or.inl rfl
  | cons x xs ih =>
      rcases ih (max a x) with h | h
      · rcases max_choice a x with hm | hm
        · exact Or.inl (by rw [List.foldl_cons, h, hm])
        · exact Or.inr (by rw [List.foldl_cons, h, hm]; exact List.mem_cons_self x xs)
      · exact Or.inr (List.mem_cons_of_mem x h)

lemma foldl_match_max (l : List Tier) (a : ℤ) (P : Tier → Bool) (F : ℤ → Tier → ℤ)
    (hF : ∀ acc row, F acc row = if P row then max acc row.category else acc) :
    l.foldl F a = ((l.filter P).map Tier.category).foldl max a := by
  induction l generalizing a with
  | nil => rfl
  | cons x xs ih =>
      rw [List.foldl_cons, hF]
      cases hP : P x with
      | true => simp only [List.filter_cons, hP, if_true, List.map_cons, List.foldl_cons]; exact ih _
      | false => simp only [List.filter_cons, hP, if_false]; exact ih _

lemma windPath_eq (w : ℚ) (table : List Tier) :
    table.foldl (fun acc row =>
      match row.minWind with
      | some mw => if mw ≤ w then max acc row.category else acc
      | none => acc) 0 = windPathSpec (some w) table := by
  unfold windPathSpec
  exact foldl_match_max table 0 _ _
    (fun acc row => by cases h : row.minWind <;> simp [h])

lemma presPath_eq (p : ℚ) (hp : 0 < p) (table : List Tier) :
    table.foldl (fun acc row =>
      match row.maxPressure with
      | some mp => if p ≤ mp then max acc row.category else acc
      | none => acc) 0 = presPathSpec (some p) table := by
  simp only [presPathSpec]
  rw [if_neg (not_le.mpr hp)]
  exact foldl_match_max table 0 _ _
    (fun acc row => by cases h : row.maxPressure <;> simp [h])

/-- C4 — For every wind value, pressure value, and payout table, the
classifier returns the maximum of two independently computed paths: the
wind path is the highest tier category whose minimum-wind threshold is ≤
the observed wind (tiers without a minimum-wind threshold skipped; absent
wind contributes 0), and the pressure path is the highest tier category
whose maximum-pressure threshold is ≥ the observed pressure (tiers without
a threshold, or pressure ≤ 0, skipped); absent or invalid readings yield 0
and never an error. -/
theorem C4_determine_category (wind pressure : Option ℚ) (table : List Tier) :
    determine_category wind pressure table
      = max (windPathSpec wind table) (presPathSpec pressure table) := by
  have hpres : ∀ p : ℚ,
      (if 0 < p then
        table.foldl (fun acc row =>
          match row.maxPressure with
          | some mp => if p ≤ mp then max acc row.category else acc
          | none => acc) 0
      else (0 : ℤ)) = presPathSpec (some p) table := by
    intro p
    by_cases hp : 0 < p
    · rw [if_pos hp, presPath_eq p hp table]
    · simp only [presPathSpec]
      rw [if_neg hp, if_pos (not_lt.mp hp)]
  unfold determine_category
  cases wind with
  | none =>
      cases pressure with
      | none => rfl
      | some p => dsimp only; rw [hpres p]; rfl
  | some w =>
      cases pressure with
      | none => dsimp only; rw [windPath_eq w table]; rfl
      | some p => dsimp only; rw [windPath_eq w table, hpres p]

/-- C5 — For every pair of track points and every location: the
projection parameter is clamped to `[0,1]` so the returned point always
lies on the segment (coinciding with `p1` when the unclamped `t < 0` and
with `p2` when it is `> 1`); coincident endpoints yield `none`; missing
wind is treated as 0 and missing pressure as 1013 mb before linear
interpolation at `t`; and the result is `none` exactly when the geographic
distance from the location to the interpolated point exceeds the radius,
otherwise the interpolated record. -/
theorem C5_interpolate_segment (dist : GeoDist) (p1 p2 : TrackPoint) (loc : Loc) :
    (p2.lat - p1.lat = 0 ∧ p2.lon - p1.lon = 0 →
      interpolate_segment dist p1 p2 loc = none)
    ∧ (0 ≤ seg_t_clamped p1 p2 loc ∧ seg_t_clamped p1 p2 loc ≤ 1)
    ∧ (seg_t p1 p2 loc < 0 →
        seg_closest_lat p1 p2 loc = p1.lat ∧ seg_closest_lon p1 p2 loc = p1.lon)
    ∧ (1 < seg_t p1 p2 loc →
        seg_closest_lat p1 p2 loc = p2.lat ∧ seg_closest_lon p1 p2 loc = p2.lon)
    ∧ (¬(p2.lat - p1.lat = 0 ∧ p2.lon - p1.lon = 0) →
        interpolate_segment dist p1 p2 loc =
          (if dist loc.lat loc.lon (seg_closest_lat p1 p2 loc) (seg_closest_lon p1 p2 loc)
              ≤ (loc.radius : WithTop ℚ) then
            some ⟨seg_closest_lat p1 p2 loc, seg_closest_lon p1 p2 loc,
                  p1.wind.getD 0 + seg_t_clamped p1 p2 loc * (p2.wind.getD 0 - p1.wind.getD 0),
                  p1.pres.getD 1013 + seg_t_clamped p1 p2 loc * (p2.pres.getD 1013 - p1.pres.getD 1013),
                  dist loc.lat loc.lon (seg_closest_lat p1 p2 loc) (seg_closest_lon p1 p2 loc)⟩
          else none))
    ∧ (∀ q, interpolate_segment dist p1 p2 loc = some q →
        q.lat = p1.lat + seg_t_clamped p1 p2 loc * (p2.lat - p1.lat) ∧
        q.lon = p1.lon + seg_t_clamped p1 p2 loc * (p2.lon - p1.lon) ∧
        q.dist = dist loc.lat loc.lon q.lat q.lon ∧
        q.dist ≤ (loc.radius : WithTop ℚ)) := by
  have hclamp0 : 0 ≤ seg_t_clamped p1 p2 loc := le_max_left 0 _
  have hclamp1 : seg_t_clamped p1 p2 loc ≤ 1 :=
    max_le zero_le_one (min_le_left 1 (seg_t p1 p2 loc))
  refine ⟨?_, ⟨hclamp0, hclamp1⟩, ?_, ?_, ?_, ?_⟩
  · intro h
    unfold interpolate_segment
    rw [if_pos h]
  · intro h
    have ht : seg_t_clamped p1 p2 loc = 0 := by
      unfold seg_t_clamped
      rw [min_eq_right (le_of_lt (h.trans zero_lt_one)), max_eq_left (le_of_lt h)]
    constructor
    · unfold seg_closest_lat; rw [ht]; ring
    · unfold seg_closest_lon; rw [ht]; ring
  · intro h
    have ht : seg_t_clamped p1 p2 loc = 1 := by
      unfold seg_t_clamped
      rw [min_eq_left (le_of_lt h), max_eq_right zero_le_one]
    constructor
    · unfold seg_closest_lat; rw [ht]; ring
    · unfold seg_closest_lon; rw [ht]; ring
  · intro h
    unfold interpolate_segment
    rw [if_neg h]
  · intro q hq
    unfold interpolate_segment at hq
    by_cases h : p2.lat - p1.lat = 0 ∧ p2.lon - p1.lon = 0
    · rw [if_pos h] at hq; cases hq
    · rw [if_neg h] at hq
      dsimp only at hq
      split at hq
      · cases hq
        refine ⟨rfl, rfl, rfl, ?_⟩
        assumption
      · cases hq

lemma evaluate_payout_complex_some (dist : GeoDist) (track : List TrackPoint)
    (la lo r : ℚ) (table : List Tier) (method : String) :
    evaluate_payout_complex dist track ⟨some la, some lo, some r, table⟩ method
      = .ok (evaluate_core dist track ⟨la, lo, r⟩ table method) := rfl

lemma evaluate_core_unknown (dist : GeoDist) (track : List TrackPoint) (loc : Loc)
    (table : List Tier) (method : String)
    (h1 : method ≠ "interpolated") (h2 : method ≠ "max_outcome") :
    evaluate_core dist track loc table method =
      ⟨decide (0 < resolve_payout table 0), resolve_payout table 0, 0, 0, ⊤, none⟩ := by
  unfold evaluate_core
  dsimp only
  rw [if_neg h1, if_neg h2]
  rfl

lemma evaluate_core_nil (dist : GeoDist) (loc : Loc) (table : List Tier) (method : String) :
    evaluate_core dist [] loc table method =
      ⟨decide (0 < resolve_payout table 0), resolve_payout table 0, 0, 0, ⊤, none⟩ := by
  unfold evaluate_core
  dsimp only
  by_cases h1 : method = "interpolated"
  · rw [if_pos h1]; rfl
  · rw [if_neg h1]
    by_cases h2 : method = "max_outcome"
    · rw [if_pos h2]; rfl
    · rw [if_neg h2]; rfl

lemma resolve_payout_zero (table : List Tier) (hcat : ∀ t ∈ table, 1 ≤ t.category) :
    resolve_payout table 0 = 0 := by
  unfold resolve_payout
  have he : table.filter (fun r => decide (r.category = (0 : ℤ))) = [] := by
    rw [List.filter_eq_nil_iff]
    intro a ha
    simp only [decide_eq_true_eq]
    intro hc
    have := hcat a ha
    omega
  have hle : table.filter (fun r => decide (r.category ≤ (0 : ℤ))) = [] := by
    rw [List.filter_eq_nil_iff]
    intro a ha
    simp only [decide_eq_true_eq]
    intro hc
    have := hcat a ha
    omega
  rw [he, hle]
  rfl

/-- C7 — For every location, well-formed payout table (positive tier
categories) and method, evaluating an empty track raises no exception and
returns triggered = false, achieved category = 0, and minimum distance =
positive infinity. -/
theorem C7_empty_track (dist : GeoDist) (la lo r : ℚ) (table : List Tier)
    (method : String) (hcat : ∀ t ∈ table, 1 ≤ t.category) :
    evaluate_payout_complex dist [] ⟨some la, some lo, some r, table⟩ method
      = .ok ⟨false, 0, 0, 0, ⊤, none⟩ := by
  rw [evaluate_payout_complex_some, evaluate_core_nil,
    resolve_payout_zero table hcat]
  rfl

/-- Witness for C7 at a concrete location, table and method. -/
theorem C7_witness :
    evaluate_payout_complex flatGeo [] ⟨some 25, some (-80), some 50, table135⟩ "max_outcome"
      = .ok ⟨false, 0, 0, 0, ⊤, none⟩ :=
  C7_empty_track flatGeo 25 (-80) 50 table135 "max_outcome" (by decide)

/-- C9 — For every track and method, the single-location evaluator
fails with an argument error whenever the location's latitude, longitude
or radius is absent, independently of any geometric evaluation. -/
theorem C9_missing_params (dist : GeoDist) (track : List TrackPoint)
    (policy : Policy) (method : String)
    (h : policy.lat = none ∨ policy.lon = none ∨ policy.radius = none) :
    evaluate_payout_complex dist track policy method
      = .error "Missing policy parameters." := by
  obtain ⟨la, lo, r, tbl⟩ := policy
  unfold evaluate_payout_complex
  rcases la with _ | la <;> rcases lo with _ | lo <;> rcases r with _ | r <;> simp_all

/-- Witness for C9 at a concrete policy missing its latitude. -/
theorem C9_witness :
    evaluate_payout_complex flatGeo [pt5] ⟨none, some 0, some 1, table135⟩ "max_outcome"
      = .error "Missing policy parameters." :=
  C9_missing_params flatGeo [pt5] ⟨none, some 0, some 1, table135⟩ "max_outcome" (Or.inl rfl)

/-- C10 — For every non-empty track, valid location and payout table,
a method string that is neither `interpolated` nor `max_outcome` raises no
exception and returns the same result as evaluating an empty track:
achieved category 0, minimum distance = positive infinity, and the payout
ratio of the category-0 resolution. -/
theorem C10_unknown_method (dist : GeoDist) (track : List TrackPoint)
    (la lo r : ℚ) (table : List Tier) (method : String)
    (h1 : method ≠ "interpolated") (h2 : method ≠ "max_outcome") :
    evaluate_payout_complex dist track ⟨some la, some lo, some r, table⟩ method
      = evaluate_payout_complex dist [] ⟨some la, some lo, some r, table⟩ method ∧
    evaluate_payout_complex dist track ⟨some la, some lo, some r, table⟩ method
      = .ok ⟨decide (0 < resolve_payout table 0), resolve_payout table 0, 0, 0, ⊤, none⟩ := by
  rw [evaluate_payout_complex_some, evaluate_payout_complex_some,
    evaluate_core_unknown dist track ⟨la, lo, r⟩ table method h1 h2,
    evaluate_core_nil dist ⟨la, lo, r⟩ table method]
  exact ⟨rfl, rfl⟩

/-- Witness for C10 at a concrete unknown method string. -/
theorem C10_witness :
    evaluate_payout_complex flatGeo [pt5] ⟨some 25, some (-80), some 50, table135⟩ "nearest"
      = evaluate_payout_complex flatGeo [] ⟨some 25, some (-80), some 50, table135⟩ "nearest" ∧
    evaluate_payout_complex flatGeo [pt5] ⟨some 25, some (-80), some 50, table135⟩ "nearest"
      = .ok ⟨decide (0 < resolve_payout table135 0), resolve_payout table135 0, 0, 0, ⊤, none⟩ :=
  C10_unknown_method flatGeo [pt5] 25 (-80) 50 table135 "nearest" (by decide) (by decide)

/-- Witness for C5: a coincident segment yields no projection, and a
location behind `p1` (raw `t < 0`) projects onto `p1` itself. -/
theorem C5_witness :
    interpolate_segment flatGeo ⟨0, 0, none, none⟩ ⟨0, 0, none, none⟩ ⟨-1, 0, 100⟩ = none ∧
    (seg_closest_lat ⟨0, 0, none, none⟩ ⟨1, 0, none, none⟩ ⟨-1, 0, 100⟩ = 0 ∧
     seg_closest_lon ⟨0, 0, none, none⟩ ⟨1, 0, none, none⟩ ⟨-1, 0, 100⟩ = 0) :=
  ⟨(C5_interpolate_segment flatGeo ⟨0, 0, none, none⟩ ⟨0, 0, none, none⟩ ⟨-1, 0, 100⟩).1
      (by constructor <;> norm_num),
   (C5_interpolate_segment flatGeo ⟨0, 0, none, none⟩ ⟨1, 0, none, none⟩ ⟨-1, 0, 100⟩).2.2.1
      (by norm_num [seg_t])⟩

lemma resolve_payout_attain (table : List Tier) (cat : ℤ) :
    resolve_payout table cat = 0 ∨
      ∃ t ∈ table, t.category ≤ cat ∧ resolve_payout table cat = t.payoutPct := by
  unfold resolve_payout
  cases he : table.filter (fun r => decide (r.category = cat)) with
  | cons m rest =>
      have hm : m ∈ table.filter (fun r => decide (r.category = cat)) := by
        rw [he]; exact List.mem_cons_self m rest
      have hm' := List.mem_filter.mp hm
      refine Or.inr ⟨m, hm'.1, le_of_eq (by simpa using hm'.2), rfl⟩
  | nil =>
      cases hl : (table.filter (fun r => decide (r.category ≤ cat))).map Tier.payoutPct with
      | nil => exact Or.inl rfl
      | cons x xs =>
          have hmem : xs.foldl max x ∈ x :: xs := by
            rcases foldl_max_attain xs x with h | h
            · rw [h]; exact List.mem_cons_self x xs
            · exact List.mem_cons_of_mem x h
          rw [← hl] at hmem
          obtain ⟨t, ht, hpt⟩ := List.mem_map.mp hmem
          have ht' := List.mem_filter.mp ht
          exact Or.inr ⟨t, ht'.1, by simpa using ht'.2, hpt.symm⟩

lemma resolve_payout_ge (table : List Tier) (cat : ℤ)
    (hmono : ∀ t1 ∈ table, ∀ t2 ∈ table, t1.category ≤ t2.category →
      t1.payoutPct ≤ t2.payoutPct)
    {t : Tier} (ht : t ∈ table) (hc : t.category ≤ cat) :
    t.payoutPct ≤ resolve_payout table cat := by
  unfold resolve_payout
  cases he : table.filter (fun r => decide (r.category = cat)) with
  | cons m rest =>
      have hm : m ∈ table.filter (fun r => decide (r.category = cat)) := by
        rw [he]; exact List.mem_cons_self m rest
      have hm' := List.mem_filter.mp hm
      have hmc : m.category = cat := by simpa using hm'.2
      exact hmono t ht m hm'.1 (by omega)
  | nil =>
      have htf : t ∈ table.filter (fun r => decide (r.category ≤ cat)) :=
        List.mem_filter.mpr ⟨ht, by simpa using hc⟩
      have htp : t.payoutPct ∈ (table.filter (fun r => decide (r.category ≤ cat))).map Tier.payoutPct :=
        List.mem_map.mpr ⟨t, htf, rfl⟩
      cases hl : (table.filter (fun r => decide (r.category ≤ cat))).map Tier.payoutPct with
      | nil => rw [hl] at htp; cases htp
      | cons x xs =>
          rw [hl] at htp
          rcases List.mem_cons.mp htp with h | h
          · rw [h]; exact le_foldl_max xs x
          · exact mem_le_foldl_max x h

lemma resolve_payout_nonneg (table : List Tier) (cat : ℤ)
    (hnn : ∀ t ∈ table, 0 ≤ t.payoutPct) : 0 ≤ resolve_payout table cat := by
  rcases resolve_payout_attain table cat with h | ⟨t, ht, _, h⟩
  · rw [h]
  · rw [h]; exact hnn t ht

lemma resolve_payout_mono (table : List Tier) {c c' : ℤ} (hcc : c ≤ c')
    (hmono : ∀ t1 ∈ table, ∀ t2 ∈ table, t1.category ≤ t2.category →
      t1.payoutPct ≤ t2.payoutPct)
    (hnn : ∀ t ∈ table, 0 ≤ t.payoutPct) :
    resolve_payout table c ≤ resolve_payout table c' := by
  rcases resolve_payout_attain table c with h | ⟨t, ht, htc, h⟩
  · rw [h]; exact resolve_payout_nonneg table c' hnn
  · rw [h]; exact resolve_payout_ge table c' hmono ht (le_trans htc hcc)

lemma resolve_payout_no_tier (table : List Tier) (cat : ℤ)
    (h : ¬ ∃ t ∈ table, t.category ≤ cat) : resolve_payout table cat = 0 := by
  unfold resolve_payout
  have he : table.filter (fun r => decide (r.category = cat)) = [] := by
    rw [List.filter_eq_nil_iff]
    intro a ha
    simp only [decide_eq_true_eq]
    intro hc
    exact h ⟨a, ha, le_of_eq hc⟩
  have hle : table.filter (fun r => decide (r.category ≤ cat)) = [] := by
    rw [List.filter_eq_nil_iff]
    intro a ha
    simp only [decide_eq_true_eq]
    intro hc
    exact h ⟨a, ha, hc⟩
  rw [he, hle]
  rfl

lemma evaluate_core_ratio (dist : GeoDist) (track : List TrackPoint) (loc : Loc)
    (table : List Tier) (method : String) :
    (evaluate_core dist track loc table method).payout_ratio
      = resolve_payout table (evaluate_core dist track loc table method).max_category_inside_radius := rfl

lemma evaluate_core_triggered (dist : GeoDist) (track : List TrackPoint) (loc : Loc)
    (table : List Tier) (method : String) :
    (evaluate_core dist track loc table method).triggered
      = decide (0 < (evaluate_core dist track loc table method).payout_ratio) := rfl

/-- C2 — For every achieved category `C` and payout table, resolution
uses the fraction of a tier whose category equals `C` exactly when one
exists; otherwise the maximum payout fraction among tiers with category
≤ `C`; if no tier has category ≤ `C` (including `C = 0`) the ratio is 0;
and a location is triggered iff the resulting payout ratio is strictly
positive. -/
theorem C2_payout_resolution (table : List Tier) (cat : ℤ) :
    ((∃ t ∈ table, t.category = cat) →
      ∃ t ∈ table, t.category = cat ∧ resolve_payout table cat = t.payoutPct)
    ∧ ((¬ ∃ t ∈ table, t.category = cat) → (∃ t ∈ table, t.category ≤ cat) →
        (∃ t ∈ table, t.category ≤ cat ∧ resolve_payout table cat = t.payoutPct)
        ∧ ∀ t ∈ table, t.category ≤ cat → t.payoutPct ≤ resolve_payout table cat)
    ∧ ((¬ ∃ t ∈ table, t.category ≤ cat) → resolve_payout table cat = 0)
    ∧ ∀ (dist : GeoDist) (track : List TrackPoint) (la lo r : ℚ)
        (method : String) (res : EvalResult),
        evaluate_payout_complex dist track ⟨some la, some lo, some r, table⟩ method = .ok res →
        (res.triggered = true ↔ 0 < res.payout_ratio)
        ∧ res.payout_ratio = resolve_payout table res.max_category_inside_radius := by
  refine ⟨?_, ?_, resolve_payout_no_tier table cat, ?_⟩
  · intro hex
    unfold resolve_payout
    cases he : table.filter (fun r => decide (r.category = cat)) with
    | nil =>
        exfalso
        obtain ⟨t, ht, htc⟩ := hex
        have : t ∈ table.filter (fun r => decide (r.category = cat)) :=
          List.mem_filter.mpr ⟨ht, by simpa using htc⟩
        rw [he] at this
        cases this
    | cons m rest =>
        have hm : m ∈ table.filter (fun r => decide (r.category = cat)) := by
          rw [he]; exact List.mem_cons_self m rest
        have hm' := List.mem_filter.mp hm
        exact ⟨m, hm'.1, by simpa using hm'.2, rfl⟩
  · intro hnoex hle
    constructor
    · unfold resolve_payout
      cases he : table.filter (fun r => decide (r.category = cat)) with
      | cons m rest =>
          have hm : m ∈ table.filter (fun r => decide (r.category = cat)) := by
            rw [he]; exact List.mem_cons_self m rest
          exact absurd ⟨m, (List.mem_filter.mp hm).1,
            by simpa using (List.mem_filter.mp hm).2⟩ hnoex
      | nil =>
          obtain ⟨t, ht, htc⟩ := hle
          have htf : t ∈ table.filter (fun r => decide (r.category ≤ cat)) :=
            List.mem_filter.mpr ⟨ht, by simpa using htc⟩
          have htp : t.payoutPct ∈ (table.filter (fun r => decide (r.category ≤ cat))).map Tier.payoutPct :=
            List.mem_map.mpr ⟨t, htf, rfl⟩
          cases hl : (table.filter (fun r => decide (r.category ≤ cat))).map Tier.payoutPct with
          | nil => rw [hl] at htp; cases htp
          | cons x xs =>
              have hmem : xs.foldl max x ∈ x :: xs := by
                rcases foldl_max_attain xs x with h | h
                · rw [h]; exact List.mem_cons_self x xs
                · exact List.mem_cons_of_mem x h
              rw [← hl] at hmem
              obtain ⟨u, hu, hpu⟩ := List.mem_map.mp hmem
              have hu' := List.mem_filter.mp hu
              exact ⟨u, hu'.1, by simpa using hu'.2, hpu.symm⟩
    · intro t ht htc
      -- with no exact match, every qualifying tier is bounded by the max
      unfold resolve_payout
      cases he : table.filter (fun r => decide (r.category = cat)) with
      | cons m rest =>
          have hm : m ∈ table.filter (fun r => decide (r.category = cat)) := by
            rw [he]; exact List.mem_cons_self m rest
          exact absurd ⟨m, (List.mem_filter.mp hm).1, by simpa using (List.mem_filter.mp hm).2⟩ hnoex
      | nil =>
          have htf : t ∈ table.filter (fun r => decide (r.category ≤ cat)) :=
            List.mem_filter.mpr ⟨ht, by simpa using htc⟩
          have htp : t.payoutPct ∈ (table.filter (fun r => decide (r.category ≤ cat))).map Tier.payoutPct :=
            List.mem_map.mpr ⟨t, htf, rfl⟩
          cases hl : (table.filter (fun r => decide (r.category ≤ cat))).map Tier.payoutPct with
          | nil => rw [hl] at htp; cases htp
          | cons x xs =>
              rw [hl] at htp
              rcases List.mem_cons.mp htp with h | h
              · rw [h]; exact le_foldl_max xs x
              · exact mem_le_foldl_max x h
  · intro dist track la lo r method res hok
    rw [evaluate_payout_complex_some] at hok
    cases hok
    exact ⟨by rw [evaluate_core_triggered]; exact decide_eq_true_iff, evaluate_core_ratio dist track ⟨la, lo, r⟩ table method⟩


/-- Witness for C2: sparse-table fallback at category 4 on the 1/3/5 table. -/
theorem C2_witness :
    resolve_payout table135 4 = 1/2 ∧
    ((∃ t ∈ table135, t.category ≤ 4 ∧ resolve_payout table135 4 = t.payoutPct)
      ∧ ∀ t ∈ table135, t.category ≤ 4 → t.payoutPct ≤ resolve_payout table135 4) :=
  ⟨by norm_num [resolve_payout, table135],
   (C2_payout_resolution table135 4).2.1 (by decide) (by decide)⟩

lemma ite_maxCat (s : ScanState) (c : ℤ) :
    ((if s.maxCat < c then { s with maxCat := c } else s) : ScanState).maxCat
      = max s.maxCat c := by
  split
  · next h => exact (max_eq_right (le_of_lt h)).symm
  · next h => exact (max_eq_left (not_lt.mp h)).symm

lemma ite_minDist_maxCat (s : ScanState) (b : Prop) [Decidable b]
    (d : WithTop ℚ) (cd : Candidate) :
    ((if b then { s with minDist := d, closest := some cd } else s) : ScanState).maxCat
      = s.maxCat := by
  split <;> rfl

lemma ite_mk_maxCat (c : Prop) [Decidable c] (d : WithTop ℚ) (m : ℤ)
    (cl : Option Candidate) (s : ScanState) :
    ((if c then ScanState.mk d m cl else s) : ScanState).maxCat
      = if c then m else s.maxCat := by
  split <;> rfl

lemma scanStep_maxCat (radius : ℚ) (table : List Tier) (pt : Candidate) (st : ScanState) :
    (scanStep radius table pt st).maxCat
      = if pt.dist ≤ (radius : WithTop ℚ) then
          max st.maxCat (determine_category pt.wind pt.pres table)
        else st.maxCat := by
  unfold scanStep
  dsimp only
  by_cases hd : pt.dist ≤ (radius : WithTop ℚ)
  · rw [if_pos hd, if_pos hd,
      ite_maxCat (if pt.dist < st.minDist then
        { st with minDist := pt.dist, closest := some pt } else st)
        (determine_category pt.wind pt.pres table),
      ite_minDist_maxCat st (pt.dist < st.minDist) pt.dist pt]
  · rw [if_neg hd, if_neg hd,
      ite_minDist_maxCat st (pt.dist < st.minDist) pt.dist pt]

lemma maxOutcomeStep_maxCat (dist : GeoDist) (loc : Loc) (table : List Tier)
    (p1 p2 : TrackPoint) (st : ScanState) :
    (maxOutcomeStep dist loc table p1 p2 st).maxCat =
      match interpolate_segment dist p1 p2 loc with
      | some _ => max st.maxCat
          (max (determine_category p1.wind p1.pres table)
               (determine_category p2.wind p2.pres table))
      | none => st.maxCat := by
  unfold maxOutcomeStep
  dsimp only
  cases hint : interpolate_segment dist p1 p2 loc with
  | none =>
      exact ite_minDist_maxCat st _ _ _
  | some q =>
      dsimp only
      simp only [ite_mk_maxCat, ite_self]
      split
      · next h => exact (max_eq_right (le_of_lt h)).symm
      · next h => exact (max_eq_left (not_lt.mp h)).symm

lemma segCatList_cons (dist : GeoDist) (loc : Loc) (table : List Tier)
    (p1 p2 : TrackPoint) (rest : List TrackPoint) :
    segCatList dist loc table (p1 :: p2 :: rest)
      = (match interpolate_segment dist p1 p2 loc with
         | some _ => [max (determine_category p1.wind p1.pres table)
                          (determine_category p2.wind p2.pres table)]
         | none => []) ++ segCatList dist loc table (p2 :: rest) := by
  show List.filterMap _ ((p1, p2) :: consecPairs (p2 :: rest)) = _
  rw [List.filterMap_cons]
  cases interpolate_segment dist p1 p2 loc <;> rfl

lemma maxOutcomeLast_maxCat (dist : GeoDist) (loc : Loc) (track : List TrackPoint)
    (st : ScanState) : (maxOutcomeLast dist loc track st).maxCat = st.maxCat := by
  unfold maxOutcomeLast
  cases track.getLast? with
  | none => rfl
  | some last => exact ite_minDist_maxCat st _ _ _

lemma maxOutcomeLoop_maxCat (dist : GeoDist) (loc : Loc) (table : List Tier) :
    ∀ (l : List TrackPoint) (st : ScanState),
      (maxOutcomeLoop dist loc table l st).maxCat
        = (segCatList dist loc table l).foldl max st.maxCat := by
  intro l
  induction l with
  | nil => intro st; rfl
  | cons p1 tail ih =>
      intro st
      cases tail with
      | nil => rfl
      | cons p2 rest =>
          show (maxOutcomeLoop dist loc table (p2 :: rest)
            (maxOutcomeStep dist loc table p1 p2 st)).maxCat = _
          rw [ih, maxOutcomeStep_maxCat, segCatList_cons]
          cases hint : interpolate_segment dist p1 p2 loc <;>
            simp [List.foldl_cons]

lemma scanCandidates_maxCat (radius : ℚ) (table : List Tier) :
    ∀ (l : List Candidate) (st : ScanState),
      (scanCandidates radius table l st).maxCat
        = (inRadiusCatList radius table l).foldl max st.maxCat := by
  intro l
  induction l with
  | nil => intro st; rfl
  | cons pt rest ih =>
      intro st
      show (scanCandidates radius table rest (scanStep radius table pt st)).maxCat = _
      rw [ih, scanStep_maxCat]
      unfold inRadiusCatList
      by_cases hd : pt.dist ≤ (radius : WithTop ℚ)
      · rw [if_pos hd, List.filter_cons_of_pos (by simpa using hd)]
        simp only [List.map_cons, List.foldl_cons]
      · rw [if_neg hd, List.filter_cons_of_neg (by simpa using hd)]

lemma evaluate_core_max_outcome_maxCat (dist : GeoDist) (track : List TrackPoint)
    (loc : Loc) (table : List Tier) :
    (evaluate_core dist track loc table "max_outcome").max_category_inside_radius
      = maxOutcomeCatSpec dist loc table track := by
  unfold evaluate_core
  dsimp only
  rw [if_neg (by decide : ¬("max_outcome" = "interpolated")), if_pos rfl]
  show (maxOutcomeLast dist loc track
    (maxOutcomeLoop dist loc table track ⟨⊤, 0, none⟩)).maxCat = _
  rw [maxOutcomeLast_maxCat, maxOutcomeLoop_maxCat]
  rfl

/-- C1 (amended) — In the `max_outcome` method the raw track points are
evaluated only for minimum-distance tracking and never contribute their own
classifier category: the achieved category equals exactly the maximum, over
all radius-intersecting segments, of the two endpoint categories (0 when no
segment intersects — in particular for a stationary or single-point track
inside the radius). -/
theorem C1_max_outcome_raw_points (dist : GeoDist) (track : List TrackPoint)
    (la lo r : ℚ) (table : List Tier) (res : EvalResult)
    (hok : evaluate_payout_complex dist track ⟨some la, some lo, some r, table⟩
      "max_outcome" = .ok res) :
    res.max_category_inside_radius = maxOutcomeCatSpec dist ⟨la, lo, r⟩ table track := by
  rw [evaluate_payout_complex_some] at hok
  cases hok
  exact evaluate_core_max_outcome_maxCat dist track ⟨la, lo, r⟩ table

/-- Witness for the amended C1 at a concrete single-point track. -/
theorem C1_witness :
    (evaluate_core flatGeo [pt5] ⟨25, -80, 50⟩ table135 "max_outcome").max_category_inside_radius
      = maxOutcomeCatSpec flatGeo ⟨25, -80, 50⟩ table135 [pt5] :=
  C1_max_outcome_raw_points flatGeo [pt5] 25 (-80) 50 table135 _
    (evaluate_payout_complex_some flatGeo [pt5] 25 (-80) 50 table135 "max_outcome")

/-- Counterexample to C1 as stated: a single stationary category-5 point at
zero distance from the location (hence within the 50-mile radius, with its
own classifier category 5) yields achieved category 0 and no trigger under
`max_outcome`. -/
theorem C1_counterexample :
    flatGeo 25 (-80) pt5.lat pt5.lon ≤ ((50 : ℚ) : WithTop ℚ) ∧
    determine_category pt5.wind pt5.pres table135 = 5 ∧
    evaluate_payout_complex flatGeo [pt5] ⟨some 25, some (-80), some 50, table135⟩ "max_outcome"
      = .ok (evaluate_core flatGeo [pt5] ⟨25, -80, 50⟩ table135 "max_outcome") ∧
    (evaluate_core flatGeo [pt5] ⟨25, -80, 50⟩ table135 "max_outcome").max_category_inside_radius = 0 ∧
    (evaluate_core flatGeo [pt5] ⟨25, -80, 50⟩ table135 "max_outcome").triggered = false := by
  refine ⟨?_, by decide, rfl, ?_, ?_⟩
  · norm_num [flatGeo, pt5, ratAbs]
  · rw [evaluate_core_max_outcome_maxCat]
    rfl
  · rw [evaluate_core_triggered, evaluate_core_ratio, evaluate_core_max_outcome_maxCat]
    have h0 : maxOutcomeCatSpec flatGeo ⟨25, -80, 50⟩ table135 [pt5] = 0 := rfl
    rw [h0, resolve_payout_zero table135 (by decide)]
    exact decide_eq_false (lt_irrefl 0)

lemma interpolate_segment_radius_mono (dist : GeoDist) (p1 p2 : TrackPoint)
    (la lo r r' : ℚ) (hrr : r ≤ r') (q : InterpPoint)
    (h : interpolate_segment dist p1 p2 ⟨la, lo, r⟩ = some q) :
    interpolate_segment dist p1 p2 ⟨la, lo, r'⟩ = some q := by
  unfold interpolate_segment at h ⊢
  by_cases hc : p2.lat - p1.lat = 0 ∧ p2.lon - p1.lon = 0
  · rw [if_pos hc] at h; cases h
  · rw [if_neg hc] at h ⊢
    dsimp only at h ⊢
    have hlat : seg_closest_lat p1 p2 ⟨la, lo, r'⟩ = seg_closest_lat p1 p2 ⟨la, lo, r⟩ := rfl
    have hlon : seg_closest_lon p1 p2 ⟨la, lo, r'⟩ = seg_closest_lon p1 p2 ⟨la, lo, r⟩ := rfl
    have ht : seg_t_clamped p1 p2 ⟨la, lo, r'⟩ = seg_t_clamped p1 p2 ⟨la, lo, r⟩ := rfl
    rw [hlat, hlon, ht]
    split at h
    · next hd =>
        cases h
        rw [if_pos (le_trans hd (WithTop.coe_le_coe.mpr hrr))]
    · next hd => cases h

lemma interpolatedPairs_mono (dist : GeoDist) (la lo r r' : ℚ) (hrr : r ≤ r') :
    ∀ (track : List TrackPoint) (pt : Candidate),
      pt ∈ interpolatedPairs dist ⟨la, lo, r⟩ track →
      pt ∈ interpolatedPairs dist ⟨la, lo, r'⟩ track := by
  intro track
  induction track with
  | nil => intro pt h; cases h
  | cons p1 tail ih =>
      cases tail with
      | nil => intro pt h; cases h
      | cons p2 rest =>
          intro pt h
          have hstep : ∀ s : ℚ, interpolatedPairs dist ⟨la, lo, s⟩ (p1 :: p2 :: rest)
              = (match interpolate_segment dist p1 p2 ⟨la, lo, s⟩ with
                 | some q => [Candidate.fromSeg q]
                 | none => []) ++
                Candidate.raw p1 (dist la lo p1.lat p1.lon) ::
                interpolatedPairs dist ⟨la, lo, s⟩ (p2 :: rest) := fun s => rfl
          rw [hstep r] at h
          rw [hstep r']
          cases hint : interpolate_segment dist p1 p2 ⟨la, lo, r⟩ with
          | some q =>
              rw [hint] at h
              rw [interpolate_segment_radius_mono dist p1 p2 la lo r r' hrr q hint]
              rcases List.mem_append.mp h with h | h
              · exact List.mem_append_left _ h
              · rcases List.mem_cons.mp h with h | h
                · exact List.mem_append_right _ (h ▸ List.mem_cons_self _ _)
                · exact List.mem_append_right _ (List.mem_cons_of_mem _ (ih pt h))
          | none =>
              rw [hint] at h
              rcases List.mem_cons.mp (by simpa using h) with h | h
              · exact List.mem_append_right _ (h ▸ List.mem_cons_self _ _)
              · exact List.mem_append_right _ (List.mem_cons_of_mem _ (ih pt h))

lemma points_to_check_mono (dist : GeoDist) (la lo r r' : ℚ) (hrr : r ≤ r')
    (track : List TrackPoint) (pt : Candidate)
    (h : pt ∈ points_to_check_interpolated dist ⟨la, lo, r⟩ track) :
    pt ∈ points_to_check_interpolated dist ⟨la, lo, r'⟩ track := by
  unfold points_to_check_interpolated at h ⊢
  rcases List.mem_append.mp h with h | h
  · exact List.mem_append_left _ (interpolatedPairs_mono dist la lo r r' hrr track pt h)
  · exact List.mem_append_right _ h

lemma inRadius_mem_mono (dist : GeoDist) (table : List Tier) (la lo r r' : ℚ)
    (hrr : r ≤ r') (track : List TrackPoint) (c : ℤ)
    (hc : c ∈ inRadiusCatList r table (points_to_check_interpolated dist ⟨la, lo, r⟩ track)) :
    c ∈ inRadiusCatList r' table (points_to_check_interpolated dist ⟨la, lo, r'⟩ track) := by
  unfold inRadiusCatList at hc ⊢
  obtain ⟨pt, hpt, hcat⟩ := List.mem_map.mp hc
  have hpt' := List.mem_filter.mp hpt
  refine List.mem_map.mpr ⟨pt, List.mem_filter.mpr
    ⟨points_to_check_mono dist la lo r r' hrr track pt hpt'.1, ?_⟩, hcat⟩
  have hd : pt.dist ≤ ((r : ℚ) : WithTop ℚ) := by simpa using hpt'.2
  simpa using le_trans hd (WithTop.coe_le_coe.mpr hrr)

lemma segCat_mem_mono (dist : GeoDist) (table : List Tier) (la lo r r' : ℚ)
    (hrr : r ≤ r') (track : List TrackPoint) (c : ℤ)
    (hc : c ∈ segCatList dist ⟨la, lo, r⟩ table track) :
    c ∈ segCatList dist ⟨la, lo, r'⟩ table track := by
  unfold segCatList at hc ⊢
  obtain ⟨pq, hpq, hf⟩ := List.mem_filterMap.mp hc
  refine List.mem_filterMap.mpr ⟨pq, hpq, ?_⟩
  cases hint : interpolate_segment dist pq.1 pq.2 ⟨la, lo, r⟩ with
  | none => rw [hint] at hf; cases hf
  | some q =>
      rw [hint] at hf
      rw [interpolate_segment_radius_mono dist pq.1 pq.2 la lo r r' hrr q hint]
      exact hf

lemma evaluate_core_interpolated_maxCat (dist : GeoDist) (track : List TrackPoint)
    (loc : Loc) (table : List Tier) :
    (evaluate_core dist track loc table "interpolated").max_category_inside_radius
      = (inRadiusCatList loc.radius table
          (points_to_check_interpolated dist loc track)).foldl max 0 := by
  unfold evaluate_core
  dsimp only
  rw [if_pos rfl]
  show (scanCandidates loc.radius table
    (points_to_check_interpolated dist loc track) ⟨⊤, 0, none⟩).maxCat = _
  rw [scanCandidates_maxCat]

/-- C6 — For a fixed track, location, well-formed payout table
(non-negative fractions, non-decreasing by category) and method, increasing
the radius never decreases the achieved category or the payout ratio. -/
theorem C6_radius_monotonicity (dist : GeoDist) (track : List TrackPoint)
    (la lo : ℚ) (table : List Tier) (method : String) (r r' : ℚ)
    (res res' : EvalResult) (hrr : r ≤ r')
    (hmono : ∀ t1 ∈ table, ∀ t2 ∈ table, t1.category ≤ t2.category →
      t1.payoutPct ≤ t2.payoutPct)
    (hnn : ∀ t ∈ table, 0 ≤ t.payoutPct)
    (hok : evaluate_payout_complex dist track ⟨some la, some lo, some r, table⟩ method = .ok res)
    (hok' : evaluate_payout_complex dist track ⟨some la, some lo, some r', table⟩ method = .ok res') :
    res.max_category_inside_radius ≤ res'.max_category_inside_radius ∧
    res.payout_ratio ≤ res'.payout_ratio := by
  rw [evaluate_payout_complex_some] at hok hok'
  cases hok
  cases hok'
  have hcat : (evaluate_core dist track ⟨la, lo, r⟩ table method).max_category_inside_radius
      ≤ (evaluate_core dist track ⟨la, lo, r'⟩ table method).max_category_inside_radius := by
    by_cases h1 : method = "interpolated"
    · subst h1
      rw [evaluate_core_interpolated_maxCat, evaluate_core_interpolated_maxCat]
      exact foldl_max_le (le_foldl_max _ 0)
        (fun c hc => mem_le_foldl_max 0
          (inRadius_mem_mono dist table la lo r r' hrr track c hc))
    · by_cases h2 : method = "max_outcome"
      · subst h2
        rw [evaluate_core_max_outcome_maxCat, evaluate_core_max_outcome_maxCat]
        unfold maxOutcomeCatSpec
        exact foldl_max_le (le_foldl_max _ 0)
          (fun c hc => mem_le_foldl_max 0
            (segCat_mem_mono dist table la lo r r' hrr track c hc))
      · rw [evaluate_core_unknown dist track ⟨la, lo, r⟩ table method h1 h2,
          evaluate_core_unknown dist track ⟨la, lo, r'⟩ table method h1 h2]
  refine ⟨hcat, ?_⟩
  rw [evaluate_core_ratio, evaluate_core_ratio]
  exact resolve_payout_mono table hcat hmono hnn

/-- Witness for C6: widening the radius from 10 to 50 miles around a
location 34.5 flat-miles from a stationary category-5 point raises the
achieved category from 0 to 5 and the payout ratio from 0 to 1. -/
theorem C6_witness :
    (evaluate_core flatGeo [pt5] ⟨25, -161/2, 10⟩ table135 "interpolated").max_category_inside_radius
      ≤ (evaluate_core flatGeo [pt5] ⟨25, -161/2, 50⟩ table135 "interpolated").max_category_inside_radius ∧
    (evaluate_core flatGeo [pt5] ⟨25, -161/2, 10⟩ table135 "interpolated").payout_ratio
      ≤ (evaluate_core flatGeo [pt5] ⟨25, -161/2, 50⟩ table135 "interpolated").payout_ratio :=
  C6_radius_monotonicity flatGeo [pt5] 25 (-161/2) table135 "interpolated" 10 50 _ _
    (by norm_num)
    (by
      intro t1 h1 t2 h2
      simp only [table135] at h1 h2
      fin_cases h1 <;> fin_cases h2 <;> norm_num)
    (by
      intro t ht
      simp only [table135] at ht
      fin_cases ht <;> norm_num)
    (evaluate_payout_complex_some flatGeo [pt5] 25 (-161/2) 10 table135 "interpolated")
    (evaluate_payout_complex_some flatGeo [pt5] 25 (-161/2) 50 table135 "interpolated")

lemma lookup_mem {β : Type} {l : List (String × β)} {n : String} {t : β}
    (h : l.lookup n = some t) : (n, t) ∈ l := by
  induction l with
  | nil => cases h
  | cons p rest ih =>
      obtain ⟨k, v⟩ := p
      simp only [List.lookup] at h
      cases hkn : (n == k) with
      | true =>
          rw [hkn] at h
          have hv := Option.some.inj h
          have hk : n = k := eq_of_beq hkn
          subst hk
          subst hv
          exact List.mem_cons_self _ _
      | false =>
          rw [hkn] at h
          exact List.mem_cons_of_mem _ (ih h)

lemma resolve_profile_mem (profiles : List (String × List Tier)) (n : String)
    (tbl : List Tier) (h : resolve_profile profiles n = some tbl) :
    ∃ p ∈ profiles, p.2 = tbl := by
  unfold resolve_profile at h
  cases h1 : profiles.lookup n with
  | some u =>
      rw [h1] at h
      have hu := Option.some.inj h
      exact ⟨(n, u), lookup_mem h1, hu⟩
  | none =>
      rw [h1] at h
      cases h2 : profiles.lookup "Default" with
      | some u =>
          rw [h2] at h
          have hu := Option.some.inj h
          exact ⟨("Default", u), lookup_mem h2, hu⟩
      | none =>
          rw [h2] at h
          cases profiles with
          | nil => cases h
          | cons p ps =>
              have hu := Option.some.inj h
              exact ⟨p, List.mem_cons_self p ps, hu⟩

lemma resolve_profile_total (profiles : List (String × List Tier)) (n : String)
    (hne : profiles ≠ []) : ∃ tbl, resolve_profile profiles n = some tbl := by
  unfold resolve_profile
  cases h1 : profiles.lookup n with
  | some t => exact ⟨t, rfl⟩
  | none =>
      cases h2 : profiles.lookup "Default" with
      | some t => exact ⟨t, rfl⟩
      | none =>
          cases profiles with
          | nil => exact absurd rfl hne
          | cons p ps => exact ⟨p.2, rfl⟩

lemma portfolioLoop_cons (dist : GeoDist) (track : List TrackPoint)
    (profiles : List (String × List Tier)) (method : String) (loc : PortLoc)
    (rest : List PortLoc) (total : ℚ) (details : List LocDetail) (trig : Bool)
    (table : List Tier)
    (hres : resolve_profile profiles (loc.profileName.getD "Default") = some table) :
    portfolioLoop dist track profiles method (loc :: rest) total details trig
      = (let res := evaluate_core dist track ⟨loc.lat, loc.lon, loc.radius⟩ table method
         let locPayout := if res.triggered then res.payout_ratio * loc.sublimit else 0
         portfolioLoop dist track profiles method rest (total + locPayout)
           (details ++ [⟨loc.name, res.triggered, locPayout,
             res.max_category_inside_radius, res.min_distance_miles⟩])
           (trig || res.triggered)) := by
  conv_lhs => unfold portfolioLoop
  rw [hres]
  dsimp only
  rw [evaluate_payout_complex_some]

lemma portfolioLoop_total (dist : GeoDist) (track : List TrackPoint)
    (profiles : List (String × List Tier)) (method : String) (hne : profiles ≠ []) :
    ∀ (locs : List PortLoc) (total : ℚ) (details : List LocDetail) (trig : Bool),
      ∃ out, portfolioLoop dist track profiles method locs total details trig = .ok out := by
  intro locs
  induction locs with
  | nil => intro total details trig; exact ⟨(total, details, trig), rfl⟩
  | cons loc rest ih =>
      intro total details trig
      obtain ⟨tbl, htbl⟩ := resolve_profile_total profiles (loc.profileName.getD "Default") hne
      rw [portfolioLoop_cons dist track profiles method loc rest total details trig tbl htbl]
      exact ih _ _ _

lemma portfolioLoop_ok (dist : GeoDist) (track : List TrackPoint)
    (profiles : List (String × List Tier)) (method : String)
    (hnn : ∀ p ∈ profiles, ∀ t ∈ p.2, 0 ≤ t.payoutPct) :
    ∀ (locs : List PortLoc) (total : ℚ) (details : List LocDetail) (trig : Bool)
      (out : ℚ × List LocDetail × Bool),
      portfolioLoop dist track profiles method locs total details trig = .ok out →
      out.1 = total + (locs.map (location_payout dist track profiles method)).sum ∧
      out.2.2 = (trig || locs.any (location_triggered dist track profiles method)) := by
  intro locs
  induction locs with
  | nil =>
      intro total details trig out h
      cases h
      simp
  | cons loc rest ih =>
      intro total details trig out h
      cases hres : resolve_profile profiles (loc.profileName.getD "Default") with
      | none =>
          unfold portfolioLoop at h
          rw [hres] at h
          cases h
      | some table =>
          rw [portfolioLoop_cons dist track profiles method loc rest total details trig table hres] at h
          dsimp only at h
          obtain ⟨h1, h2⟩ := ih _ _ _ _ h
          have htbl_nn : ∀ t ∈ table, 0 ≤ t.payoutPct := by
            obtain ⟨p, hp, hpt⟩ := resolve_profile_mem profiles _ table hres
            intro t htt
            exact hnn p hp t (hpt ▸ htt)
          have hlp : (if (evaluate_core dist track ⟨loc.lat, loc.lon, loc.radius⟩ table method).triggered
              then (evaluate_core dist track ⟨loc.lat, loc.lon, loc.radius⟩ table method).payout_ratio * loc.sublimit
              else 0) = location_payout dist track profiles method loc := by
            unfold location_payout
            rw [hres]
            dsimp only
            rw [evaluate_payout_complex_some]
            dsimp only
            by_cases htr : (evaluate_core dist track ⟨loc.lat, loc.lon, loc.radius⟩ table method).triggered
            · rw [if_pos htr]
            · rw [if_neg htr]
              have hr0 : (evaluate_core dist track ⟨loc.lat, loc.lon, loc.radius⟩ table method).payout_ratio = 0 := by
                have hle : ¬ (0 < (evaluate_core dist track ⟨loc.lat, loc.lon, loc.radius⟩ table method).payout_ratio) := by
                  intro hpos
                  exact htr (by rw [evaluate_core_triggered]; exact decide_eq_true hpos)
                have hge : 0 ≤ (evaluate_core dist track ⟨loc.lat, loc.lon, loc.radius⟩ table method).payout_ratio := by
                  rw [evaluate_core_ratio]
                  exact resolve_payout_nonneg table _ htbl_nn
                exact le_antisymm (not_lt.mp hle) hge
              rw [hr0, zero_mul]
          have hlt : (evaluate_core dist track ⟨loc.lat, loc.lon, loc.radius⟩ table method).triggered
              = location_triggered dist track profiles method loc := by
            unfold location_triggered
            rw [hres]
            dsimp only
            rw [evaluate_payout_complex_some]
          constructor
          · rw [h1, hlp, List.map_cons, List.sum_cons]
            ring
          · rw [h2, hlt, List.any_cons, Bool.or_assoc]

/-- C3 — For every track, location list, aggregate limit, profile
mapping with non-negative payout fractions and method, a successful
portfolio evaluation's total payout equals
`min(Σ payout ratio × sublimit, aggregate limit)` exactly — hence is always
≤ the aggregate limit — the uncapped sum is reported unchanged, and the
portfolio triggered flag is true iff at least one location individually
triggered. -/
theorem C3_portfolio_aggregation (dist : GeoDist) (track : List TrackPoint)
    (locs : List PortLoc) (limit : ℚ) (profiles : List (String × List Tier))
    (method : String) (res : PortfolioResult)
    (hnn : ∀ p ∈ profiles, ∀ t ∈ p.2, 0 ≤ t.payoutPct)
    (hok : evaluate_portfolio_complex dist track locs limit profiles method = .ok res) :
    res.total_payout = min ((locs.map (location_payout dist track profiles method)).sum) limit
    ∧ res.total_payout ≤ limit
    ∧ res.uncapped_payout = (locs.map (location_payout dist track profiles method)).sum
    ∧ (res.triggered = true ↔
        ∃ loc ∈ locs, location_triggered dist track profiles method loc = true) := by
  unfold evaluate_portfolio_complex at hok
  cases hloop : portfolioLoop dist track profiles method locs 0 [] false with
  | error e => rw [hloop] at hok; cases hok
  | ok out =>
      rw [hloop] at hok
      obtain ⟨h1, h2⟩ := portfolioLoop_ok dist track profiles method hnn locs 0 [] false out hloop
      obtain ⟨total, details, trig⟩ := out
      cases hok
      dsimp only at h1 h2
      rw [zero_add] at h1
      refine ⟨?_, min_le_right _ _, h1, ?_⟩
      · show min total limit = _
        rw [h1]
      · show trig = true ↔ _
        rw [h2, Bool.false_or, List.any_eq_true]

/-- Witness for C3: two 600 000-sublimit locations on top of a stationary
category-5 point with a 1 000 000 aggregate limit. -/
theorem C3_witness :
    ∃ res, evaluate_portfolio_complex flatGeo [pt5] [locA, locB] 1000000 profsDefault "interpolated" = .ok res ∧
      res.total_payout
        = min (([locA, locB].map (location_payout flatGeo [pt5] profsDefault "interpolated")).sum) 1000000 ∧
      res.total_payout ≤ 1000000 ∧
      res.uncapped_payout
        = ([locA, locB].map (location_payout flatGeo [pt5] profsDefault "interpolated")).sum ∧
      (res.triggered = true ↔
        ∃ loc ∈ [locA, locB], location_triggered flatGeo [pt5] profsDefault "interpolated" loc = true) := by
  have hnn : ∀ p ∈ profsDefault, ∀ t ∈ p.2, 0 ≤ t.payoutPct := by
    intro p hp t ht
    simp only [profsDefault] at hp
    rw [List.mem_singleton] at hp
    subst hp
    simp only [table135] at ht
    fin_cases ht <;> norm_num
  obtain ⟨out, hout⟩ := portfolioLoop_total flatGeo [pt5] profsDefault "interpolated"
    (by simp [profsDefault]) [locA, locB] 0 [] false
  obtain ⟨total, details, trig⟩ := out
  have hok : evaluate_portfolio_complex flatGeo [pt5] [locA, locB] 1000000 profsDefault "interpolated"
      = .ok ⟨trig, min total 1000000, total, details⟩ := by
    unfold evaluate_portfolio_complex
    rw [hout]
  exact ⟨_, hok,
    C3_portfolio_aggregation flatGeo [pt5] [locA, locB] 1000000 profsDefault "interpolated" _ hnn hok⟩

/-- C8 — A location whose named payout profile is missing from a
non-empty profile mapping resolves to the profile named `"Default"` when
that exists, otherwise to the first available profile, and a portfolio
evaluation never fails outright due to a stale profile reference. -/
theorem C8_profile_fallback (profiles : List (String × List Tier)) (name : String)
    (hne : profiles ≠ []) :
    (profiles.lookup name = none →
      (∀ t, profiles.lookup "Default" = some t → resolve_profile profiles name = some t) ∧
      (profiles.lookup "Default" = none →
        resolve_profile profiles name = (profiles.map Prod.snd).head? ∧
        ∃ tbl, resolve_profile profiles name = some tbl)) ∧
    ∀ (dist : GeoDist) (track : List TrackPoint) (locs : List PortLoc) (limit : ℚ)
      (method : String),
      ∃ res, evaluate_portfolio_complex dist track locs limit profiles method = .ok res := by
  constructor
  · intro h1
    constructor
    · intro t h2
      unfold resolve_profile
      rw [h1, h2]
    · intro h2
      constructor
      · unfold resolve_profile
        rw [h1, h2]
      · unfold resolve_profile
        rw [h1, h2]
        cases profiles with
        | nil => exact absurd rfl hne
        | cons p ps => exact ⟨p.2, rfl⟩
  · intro dist track locs limit method
    obtain ⟨out, hout⟩ := portfolioLoop_total dist track profiles method hne locs 0 [] false
    obtain ⟨total, details, trig⟩ := out
    refine ⟨⟨trig, min total limit, total, details⟩, ?_⟩
    unfold evaluate_portfolio_complex
    rw [hout]

/-- Witness for C8: a stale profile name against a mapping holding only a
non-`"Default"` profile resolves to that first profile, and the portfolio
evaluation succeeds. -/
theorem C8_witness :
    resolve_profile profsOther "Stale" = some table135 ∧
    ∃ res, evaluate_portfolio_complex flatGeo [pt5] [locB] 1000000 profsOther "max_outcome" = .ok res := by
  have h := C8_profile_fallback profsOther "Stale" (by simp [profsOther])
  constructor
  · have h2 := (h.1 (by simp [profsOther, List.lookup])).2 (by simp [profsOther, List.lookup])
    rw [h2.1]
    rfl
  · exact h.2 flatGeo [pt5] [locB] 1000000 "max_outcome"
